import Mathlib

/-!
A shallow embedding of the routing and adaptation core of the
claude-code-router repository: the `ApiKeySelector` key-rotation state
machine and the `ProviderService` provider registry / model-route table
from `src/llms/src/services/provider.ts`, together with the Gemini
adapter's `transformRequestIn`.

JavaScript `Map` objects are modelled as insertion-ordered association
lists: `mapSet` replaces in place when the key is present and appends
otherwise, `mapGet` returns the value at the matching key (`none` for
`undefined`), `mapDelete` removes the entry, `mapHas` tests membership.
This matches JS `Map` semantics for `get` / `set` / `delete` / `has`
and for iteration order.
-/

/-- JS `Map.prototype.has`. -/
def mapHas {α : Type} (m : List (String × α)) (k : String) : Bool :=
  match m with
  | [] => false
  | a :: t => a.1 == k || mapHas t k

/-- JS `Map.prototype.get`: the value stored at `k`, or `none` for
`undefined`. -/
def mapGet {α : Type} (m : List (String × α)) (k : String) : Option α :=
  match m with
  | [] => none
  | a :: t => if a.1 == k then some a.2 else mapGet t k

/-- JS `Map.prototype.set`: replace in place when the key is present,
otherwise append at the end. -/
def mapSet {α : Type} (m : List (String × α)) (k : String) (v : α) :
    List (String × α) :=
  if mapHas m k then
    m.map (fun p => if p.1 == k then (k, v) else p)
  else m ++ [(k, v)]

/-- JS `Map.prototype.delete` (the resulting map). -/
def mapDelete {α : Type} (m : List (String × α)) (k : String) :
    List (String × α) :=
  match m with
  | [] => []
  | a :: t => if a.1 == k then mapDelete t k else a :: mapDelete t k

/-! ### Bare and qualified model names

Qualified route keys have the shape `name ++ "," ++ model`.  A bare model
name contains no comma, so it can never collide with a qualified key. -/

/-- A model name containing no comma (an unqualified name). -/
def isBareName (s : String) : Bool := s.data.all (fun c => c != ',')

/-! ### The `ApiKeySelector` state machine (provider.ts lines 16-96) -/

/-- The three key-selection strategies. -/
inductive Strategy where
  | roundRobin
  | random
  | failover
  deriving DecidableEq, Repr

/-- State of one `ApiKeySelector`: the stored cursor `currentIndex`
(initially 0), the strategy, and the key list. -/
structure ApiKeySelector where
  currentIndex : Nat
  strategy : Strategy
  keys : List String
  deriving DecidableEq, Repr

/-- The `ApiKeySelector` constructor (lines 21-24): cursor starts at 0. -/
def ApiKeySelector.mk0 (keys : List String) (strategy : Strategy) : ApiKeySelector :=
  ⟨0, strategy, keys⟩

/-- One call of `selectKey` (lines 31-88).  `excludeIndex` is the failed key
index, `-1` for a non-failure call.  `rnd` models the random source: the JS
expression `Math.floor(Math.random() * b)` — a uniform value in `[0, b)` —
is modelled as `rnd % b` for an arbitrary natural seed `rnd`.  The returned
key is `none` where the JS array access would yield `undefined`.  The
selector state after the call is returned alongside the result, and
`Except.error` models a thrown exception. -/
def ApiKeySelector.selectKey (s : ApiKeySelector) (excludeIndex : Int) (rnd : Nat) :
    Except String ((Option String × Nat) × ApiKeySelector) :=
  if s.keys.length = 0 then
    Except.error "No API keys available"
  else if s.keys.length = 1 then
    Except.ok ((s.keys[0]?, 0), s)
  else
    match s.strategy with
    | Strategy.random =>
      let selectedIndex : Nat :=
        if 0 ≤ excludeIndex ∧ 1 < s.keys.length then
          let availableIndices : List Nat :=
            (List.range s.keys.length).filter (fun i => Int.ofNat i != excludeIndex)
          availableIndices.getD (rnd % availableIndices.length) 0
        else
          rnd % s.keys.length
      Except.ok ((s.keys[selectedIndex]?, selectedIndex), s)
    | Strategy.failover =>
      if 0 ≤ excludeIndex then
        let selectedIndex := (excludeIndex + 1).toNat % s.keys.length
        Except.ok ((s.keys[selectedIndex]?, selectedIndex),
          { s with currentIndex := selectedIndex })
      else
        Except.ok ((s.keys[s.currentIndex]?, s.currentIndex), s)
    | Strategy.roundRobin =>
      if 0 ≤ excludeIndex then
        let selectedIndex := (excludeIndex + 1).toNat % s.keys.length
        Except.ok ((s.keys[selectedIndex]?, selectedIndex), s)
      else
        Except.ok ((s.keys[s.currentIndex]?, s.currentIndex),
          { s with currentIndex := (s.currentIndex + 1) % s.keys.length })

/-- `getKeyCount` (lines 93-95). -/
def ApiKeySelector.getKeyCount (s : ApiKeySelector) : Nat := s.keys.length

/-! ### The `ProviderService` registry (provider.ts lines 98-412) -/

/-- A model route entry (`ModelRoute`). -/
structure ModelRoute where
  provider : String
  model : String
  fullModel : String
  deriving DecidableEq, Repr

/-- A registration request (`RegisterProviderRequest`): `name`, `baseUrl`,
the `apiKey` list, the optional `apiKeyStrategy`, and `models`.  The
`transformer` field is omitted: it is never observed by any registry
operation modelled here. -/
structure RegisterProviderRequest where
  name : String
  baseUrl : String
  apiKey : List String
  apiKeyStrategy : Option Strategy
  models : List String
  deriving DecidableEq, Repr

/-- The stored provider record (`LLMProvider`).  `registerProvider` stores a
plain spread of the request, so the record carries exactly the request's
fields; the `updatedAt` timestamp added by `updateProvider` and the
`transformer` field are never observed by the modelled operations and are
omitted.  Note the runtime object has no `id` property: nothing ever sets
one. -/
structure LLMProvider where
  name : String
  baseUrl : String
  apiKey : List String
  apiKeyStrategy : Option Strategy
  models : List String
  deriving DecidableEq, Repr

/-- The spread `{...request}` of `registerProvider` (lines 193-195). -/
def providerOfRequest (r : RegisterProviderRequest) : LLMProvider :=
  ⟨r.name, r.baseUrl, r.apiKey, r.apiKeyStrategy, r.models⟩

/-- `RequestRouteInfo` as produced by `resolveModelRoute`. -/
structure RequestRouteInfo where
  provider : LLMProvider
  originalModel : String
  targetModel : String
  deriving DecidableEq, Repr

/-- A `Partial<LLMProvider>` update object: each field optionally present. -/
structure ProviderUpdates where
  name : Option String := none
  baseUrl : Option String := none
  apiKey : Option (List String) := none
  apiKeyStrategy : Option (Option Strategy) := none
  models : Option (List String) := none
  deriving DecidableEq, Repr

/-- The spread `{...provider, ...updates}` of `updateProvider`
(lines 266-270); the `updatedAt` stamp is not modelled. -/
def applyUpdates (p : LLMProvider) (u : ProviderUpdates) : LLMProvider :=
  { name := u.name.getD p.name
    baseUrl := u.baseUrl.getD p.baseUrl
    apiKey := u.apiKey.getD p.apiKey
    apiKeyStrategy := u.apiKeyStrategy.getD p.apiKeyStrategy
    models := u.models.getD p.models }

/-- The three private maps of `ProviderService` (lines 99-101). -/
structure ProviderService where
  providers : List (String × LLMProvider)
  modelRoutes : List (String × ModelRoute)
  keySelectors : List (String × ApiKeySelector)
  deriving DecidableEq, Repr

/-- A freshly constructed service with no configured providers. -/
def ProviderService.empty : ProviderService := ⟨[], [], []⟩

/-- One iteration of the route-insertion loop: unconditionally set the
qualified entry `name ++ "," ++ model`; then set the bare entry `model`
only if no entry for that key exists (first-claim-wins). -/
def insertOneRoute (name : String) (rs : List (String × ModelRoute))
    (model : String) : List (String × ModelRoute) :=
  let fullModel := name ++ "," ++ model
  let route : ModelRoute := ⟨name, model, fullModel⟩
  let rs2 := mapSet rs fullModel route
  if mapHas rs2 model then rs2 else mapSet rs2 model route

/-- The route-insertion loop, written identically in `registerProvider`
(lines 206-217) and in the `models` branch of `updateProvider`
(lines 281-292). -/
def insertModelRoutes (name : String) (models : List String)
    (routes : List (String × ModelRoute)) : List (String × ModelRoute) :=
  models.foldl (insertOneRoute name) routes

/-- `registerProvider` (lines 192-220): no validation; stores the spread of
the request, builds a fresh `ApiKeySelector` (strategy defaulting to
round-robin), and inserts the model routes. -/
def ProviderService.registerProvider (s : ProviderService)
    (request : RegisterProviderRequest) : ProviderService :=
  let provider := providerOfRequest request
  let providers := mapSet s.providers provider.name provider
  let selector := ApiKeySelector.mk0 provider.apiKey
    (provider.apiKeyStrategy.getD Strategy.roundRobin)
  let keySelectors := mapSet s.keySelectors provider.name selector
  let modelRoutes := insertModelRoutes provider.name request.models s.modelRoutes
  ⟨providers, modelRoutes, keySelectors⟩

/-- `selectApiKey` (lines 228-234): throws when no key selector exists for
the name; otherwise delegates to the selector, whose mutation is written
back. -/
def ProviderService.selectApiKey (s : ProviderService) (providerName : String)
    (excludeIndex : Int) (rnd : Nat) :
    Except String ((Option String × Nat) × ProviderService) :=
  match mapGet s.keySelectors providerName with
  | none => Except.error ("No key selector found for provider: " ++ providerName)
  | some selector =>
    match selector.selectKey excludeIndex rnd with
    | Except.error e => Except.error e
    | Except.ok (result, selector2) =>
      Except.ok (result,
        { s with keySelectors := mapSet s.keySelectors providerName selector2 })

/-- `getApiKeyCount` (lines 241-247): returns 0 — it does not throw — when
no key selector exists for the name. -/
def ProviderService.getApiKeyCount (s : ProviderService)
    (providerName : String) : Nat :=
  match mapGet s.keySelectors providerName with
  | none => 0
  | some selector => selector.getKeyCount

/-- `getProvider` (lines 253-255). -/
def ProviderService.getProvider (s : ProviderService) (name : String) :
    Option LLMProvider :=
  mapGet s.providers name

/-- `updateProvider` (lines 257-296).  When `updates.models` is present
(note: an empty array is truthy in JS), the old routes are deleted and the
new ones inserted.  The delete loop computes the qualified key from
`provider.id` — a property that does not exist on the stored object — so
the JS template literal stringifies `undefined` and the deleted qualified
key is the literal string `"undefined," ++ model`; the bare key `model` is
deleted unconditionally.  Reinsertion uses `provider.name` (the old
record's name). -/
def ProviderService.updateProvider (s : ProviderService) (id : String)
    (updates : ProviderUpdates) : Option LLMProvider × ProviderService :=
  match mapGet s.providers id with
  | none => (none, s)
  | some provider =>
    let updatedProvider := applyUpdates provider updates
    let providers := mapSet s.providers id updatedProvider
    let modelRoutes :=
      match updates.models with
      | some newModels =>
        let afterDelete := provider.models.foldl (fun rs model =>
          mapDelete (mapDelete rs ("undefined," ++ model)) model) s.modelRoutes
        insertModelRoutes provider.name newModels afterDelete
      | none => s.modelRoutes
    (some updatedProvider, ⟨providers, modelRoutes, s.keySelectors⟩)

/-- `deleteProvider` (lines 298-312): deletes the provider's routes (the
qualified key via `provider.name` here) and the provider record.  The key
selector map is left untouched — the source never deletes from
`keySelectors`. -/
def ProviderService.deleteProvider (s : ProviderService) (id : String) :
    Bool × ProviderService :=
  match mapGet s.providers id with
  | none => (false, s)
  | some provider =>
    let modelRoutes := provider.models.foldl (fun rs model =>
      mapDelete (mapDelete rs (provider.name ++ "," ++ model)) model) s.modelRoutes
    let providers := mapDelete s.providers id
    (true, ⟨providers, modelRoutes, s.keySelectors⟩)

/-- `resolveModelRoute` (lines 322-338). -/
def ProviderService.resolveModelRoute (s : ProviderService) (modelName : String) :
    Option RequestRouteInfo :=
  match mapGet s.modelRoutes modelName with
  | none => none
  | some route =>
    match mapGet s.providers route.provider with
    | none => none
    | some provider => some ⟨provider, modelName, route.model⟩

/-- `getAvailableModelNames` (lines 340-349): for every provider in
registration order and every model it serves, push the bare name and then
the qualified name. -/
def ProviderService.getAvailableModelNames (s : ProviderService) : List String :=
  s.providers.foldl (fun acc p =>
    p.2.models.foldl (fun acc2 model =>
      acc2 ++ [model, p.2.name ++ "," ++ model]) acc) []

/-! ### Bulk initialization from the configuration array
(provider.ts lines 116-190) -/

/-- One entry of the external `providers` configuration array
(`ConfigProvider`).  JS falsiness of a missing or empty `name` /
`api_base_url` string is modelled by the empty string; `api_key` is `none`
when the field is missing or not an array.  The `transformer` field is
omitted: the resolution code (lines 130-174) only populates the unobserved
`transformer` field of the registration request. -/
structure ConfigProvider where
  name : String
  api_base_url : String
  api_key : Option (List String)
  api_key_strategy : Option Strategy
  models : Option (List String)
  deriving DecidableEq, Repr

/-- The validation guard of the bulk loader (lines 119-128):
`!name || !api_base_url || !api_key || !Array.isArray(api_key) ||
api_key.length === 0` rejects the entry. -/
def validProviderConfig (c : ConfigProvider) : Bool :=
  if c.name == "" || c.api_base_url == "" then false
  else
    match c.api_key with
    | none => false
    | some keys => keys.length != 0

/-- `initializeFromProvidersArray` (lines 116-190): each entry is processed
in order; an entry rejected by the guard is logged and skipped, and the
remaining entries are still processed.  A valid entry is registered with
`api_key_strategy || 'round-robin'` and `models || []`. -/
def ProviderService.initFromProvidersArray (s : ProviderService)
    (providersConfig : List ConfigProvider) : ProviderService :=
  providersConfig.foldl (fun st c =>
    if validProviderConfig c then
      st.registerProvider
        ⟨c.name, c.api_base_url, c.api_key.getD [],
          some (c.api_key_strategy.getD Strategy.roundRobin), c.models.getD []⟩
    else st) s

/-! ### The Gemini adapter's `transformRequestIn` -/

/-- The unified request fields read by the Gemini adapter. -/
structure UnifiedChatRequest where
  model : String
  stream : Bool
  deriving DecidableEq, Repr

/-- The transport configuration produced by
`GeminiTransformer.transformRequestIn`.  The outbound URL
`new URL(urlRelative, urlBase)` is modelled as the pair of the relative
reference and the base it is joined with; `Authorization: undefined` is
modelled as `none`.  The request body (`buildRequestBody`) lives in a
utility module outside the sources and is not modelled. -/
structure GeminiRequestConfig where
  urlBase : String
  urlRelative : String
  xGoogApiKey : Option String
  authorization : Option String
  deriving DecidableEq, Repr

/-- `GeminiTransformer.transformRequestIn`: the credential is
`provider.apiKey[0]` (the provider's `apiKey` is an array here), the
relative URL is `./<model>:<action>` with the action chosen by the
streaming flag, and the `Authorization` header is explicitly unset. -/
def GeminiTransformer.transformRequestIn (request : UnifiedChatRequest)
    (provider : LLMProvider) : GeminiRequestConfig :=
  let apiKey := provider.apiKey.head?
  { urlBase := provider.baseUrl
    urlRelative := "./" ++ request.model ++ ":" ++
      (if request.stream then "streamGenerateContent?alt=sse" else "generateContent")
    xGoogApiKey := apiKey
    authorization := none }

/-! ### Derived observers and concrete scenarios used by the claims -/

/-- Iterated non-failure calls of `selectKey` (the rotation cycle): apply
`selectKey(-1)` `k` times, keeping the selector state and discarding the
results.  The random seed is irrelevant on non-failure round-robin calls. -/
def ApiKeySelector.runNonFailure (s : ApiKeySelector) : Nat -> ApiKeySelector
  | 0 => s
  | k + 1 =>
    match (ApiKeySelector.runNonFailure s k).selectKey (-1) 0 with
    | Except.ok r => r.2
    | Except.error _ => ApiKeySelector.runNonFailure s k

/-- The index component of a `selectKey` result (0 for the error case,
which the theorems using this observer rule out). -/
def selectedIndexOf (r : Except String ((Option String × Nat) × ApiKeySelector)) :
    Nat :=
  match r with
  | Except.ok ((_, i), _) => i
  | Except.error _ => 0

/-- Scenario: provider `P` serving model `m1` with one key. -/
def reqP : RegisterProviderRequest := ⟨"P", "http://p", ["k"], none, ["m1"]⟩

/-- The service after registering `P`. -/
def servP : ProviderService := ProviderService.empty.registerProvider reqP

/-- The service after updating `P`'s model list from `["m1"]` to `["m2"]`. -/
def servP2 : ProviderService :=
  (servP.updateProvider "P" { models := some ["m2"] }).2

/-- Scenario: provider `A` claims model `chat` first. -/
def servA : ProviderService :=
  ProviderService.empty.registerProvider ⟨"A", "http://a", ["ka"], none, ["chat"]⟩

/-- Provider `B`, registered second, also serves `chat`. -/
def servAB : ProviderService :=
  servA.registerProvider ⟨"B", "http://b", ["kb"], none, ["chat"]⟩

/-- The service after `updateProvider("B", \x7bmodels: ["chat"]\x7d)`. -/
def servAB2 : ProviderService :=
  (servAB.updateProvider "B" { models := some ["chat"] }).2

/-- A provider registered directly (not via bulk loading) with an empty
key list. -/
def servEmptyKeys : ProviderService :=
  ProviderService.empty.registerProvider ⟨"X", "http://x", [], none, ["m"]⟩

/-! ## Lemma layer -/

theorem mapGet_nil {α : Type} (k : String) : mapGet ([] : List (String × α)) k = none :=
  rfl

theorem mapGet_cons {α : Type} (a : String × α) (t : List (String × α)) (k : String) :
    mapGet (a :: t) k = if a.1 == k then some a.2 else mapGet t k :=
  rfl

theorem mapHas_cons {α : Type} (a : String × α) (t : List (String × α)) (k : String) :
    mapHas (a :: t) k = (a.1 == k || mapHas t k) :=
  rfl

theorem mapHas_eq_isSome_mapGet {α : Type} (m : List (String × α)) (k : String) :
    mapHas m k = (mapGet m k).isSome := by
  induction m with
  | nil => rfl
  | cons a t ih =>
    rw [mapHas_cons, mapGet_cons]
    cases h : a.1 == k
    · simpa [h] using ih
    · simp [h]

theorem mapGet_replace {α : Type} (m : List (String × α)) (k k' : String) (v : α) :
    mapGet (m.map (fun p => if p.1 == k then (k, v) else p)) k' =
      if k' = k then (if mapHas m k then some v else none) else mapGet m k' := by
  induction m with
  | nil =>
    by_cases h : k' = k <;> simp [mapGet, mapHas, h]
  | cons a t ih =>
    simp only [beq_iff_eq] at ih
    by_cases hak : a.1 = k
    · by_cases hk : k' = k
      · subst hk
        simp [mapGet_cons, mapHas_cons, hak, beq_iff_eq]
      · simp [mapGet_cons, hak, hk, ih, beq_iff_eq,
          show ¬(k = k') from fun h => hk h.symm]
    · by_cases hk' : a.1 = k'
      · have hne : ¬(k' = k) := fun hcon => hak (hk'.trans hcon)
        simp [mapGet_cons, hak, hk', hne, beq_iff_eq]
      · simp [mapGet_cons, mapHas_cons, hak, hk', ih, beq_iff_eq]

theorem mapGet_append_single {α : Type} (m : List (String × α)) (k k' : String)
    (v : α) :
    mapGet (m ++ [(k, v)]) k' =
      (match mapGet m k' with
        | some x => some x
        | none => if k' = k then some v else none) := by
  induction m with
  | nil =>
    by_cases h : k' = k
    · simp [mapGet, h, beq_iff_eq]
    · simp [mapGet, h, beq_iff_eq, show ¬(k = k') from fun hcon => h hcon.symm]
  | cons a t ih =>
    rw [List.cons_append, mapGet_cons, mapGet_cons]
    by_cases h : a.1 == k'
    · rw [if_pos h, if_pos h]
    · rw [if_neg h, if_neg h, ih]

theorem mapGet_none_of_not_has {α : Type} {m : List (String × α)} {k : String}
    (h : mapHas m k = false) : mapGet m k = none := by
  have h2 := mapHas_eq_isSome_mapGet m k
  rw [h] at h2
  exact Option.not_isSome_iff_eq_none.mp (by simp [← h2])

theorem mapGet_mapSet {α : Type} (m : List (String × α)) (k k' : String) (v : α) :
    mapGet (mapSet m k v) k' = if k' = k then some v else mapGet m k' := by
  unfold mapSet
  by_cases h : mapHas m k
  · rw [if_pos h, mapGet_replace, h]
    by_cases hk : k' = k
    · rw [if_pos hk, if_pos hk, if_pos rfl]
    · rw [if_neg hk, if_neg hk]
  · rw [if_neg h, mapGet_append_single]
    have hnone : mapGet m k = none := mapGet_none_of_not_has (by simpa using h)
    by_cases hk : k' = k
    · subst hk
      rw [hnone]
    · cases hm : mapGet m k' <;> simp [hk]

theorem mapGet_mapDelete {α : Type} (m : List (String × α)) (k k' : String) :
    mapGet (mapDelete m k) k' = if k' = k then none else mapGet m k' := by
  induction m with
  | nil =>
    by_cases h : k' = k <;> simp [mapGet, mapDelete, h]
  | cons a t ih =>
    rw [mapDelete]
    by_cases hak : a.1 = k
    · by_cases hk : k' = k
      · subst hk
        simp [hak, ih, beq_iff_eq]
      · simp [mapGet_cons, hak, hk, ih, beq_iff_eq,
          show ¬(k = k') from fun hcon => hk hcon.symm]
    · by_cases hk' : a.1 = k'
      · have hne2 : ¬(k' = k) := fun hcon => hak (hk'.trans hcon)
        simp [mapGet_cons, hak, hk', hne2, beq_iff_eq]
      · simp [mapGet_cons, hak, hk', ih, beq_iff_eq]

theorem data_qualified (a b : String) :
    (a ++ "," ++ b).data = a.data ++ ',' :: b.data := by
  rw [String.data_append, String.data_append, List.append_assoc]
  rfl

theorem bareName_ne_qualified {m a b : String} (hm : isBareName m = true) :
    m ≠ a ++ "," ++ b := by
  intro h
  have hdata : m.data = a.data ++ ',' :: b.data := by
    rw [h, data_qualified]
  have hmem : (',' : Char) ∈ m.data := by
    rw [hdata]
    simp
  have hall := List.all_eq_true.mp hm ',' hmem
  simp at hall

theorem qualified_right_inj {a b c : String} (h : a ++ "," ++ b = a ++ "," ++ c) :
    b = c := by
  have hdata := congrArg String.data h
  rw [data_qualified, data_qualified] at hdata
  have := List.append_cancel_left hdata
  exact String.ext (List.cons_injective this)

/-! ### Properties of the route-insertion loop -/

theorem insertModelRoutes_nil (name : String) (routes : List (String × ModelRoute)) :
    insertModelRoutes name [] routes = routes :=
  rfl

theorem insertModelRoutes_cons (name x : String) (xs : List String)
    (routes : List (String × ModelRoute)) :
    insertModelRoutes name (x :: xs) routes =
      insertModelRoutes name xs (insertOneRoute name routes x) :=
  rfl

/-- Full characterization of one insertion step: the qualified key always
maps to the fresh route; the bare key gets the fresh route exactly when it
was absent (after the qualified write); every other key is untouched. -/
theorem mapGet_insertOneRoute (name x k : String) (rs : List (String × ModelRoute)) :
    mapGet (insertOneRoute name rs x) k =
      (if k = name ++ "," ++ x then some ⟨name, x, name ++ "," ++ x⟩
       else if k = x ∧
           mapGet (mapSet rs (name ++ "," ++ x) ⟨name, x, name ++ "," ++ x⟩) x = none
         then some ⟨name, x, name ++ "," ++ x⟩
       else mapGet rs k) := by
  have heq : insertOneRoute name rs x =
      (if mapHas (mapSet rs (name ++ "," ++ x) ⟨name, x, name ++ "," ++ x⟩) x then
        mapSet rs (name ++ "," ++ x) ⟨name, x, name ++ "," ++ x⟩
      else
        mapSet (mapSet rs (name ++ "," ++ x) ⟨name, x, name ++ "," ++ x⟩) x
          ⟨name, x, name ++ "," ++ x⟩) := rfl
  rw [heq]
  by_cases hhas : mapHas (mapSet rs (name ++ "," ++ x) ⟨name, x, name ++ "," ++ x⟩) x
  · rw [if_pos hhas, mapGet_mapSet]
    have hsome : mapGet (mapSet rs (name ++ "," ++ x) ⟨name, x, name ++ "," ++ x⟩) x ≠
        none := by
      rw [mapHas_eq_isSome_mapGet] at hhas
      exact fun hc => by rw [hc] at hhas; exact Bool.noConfusion hhas
    by_cases hk : k = name ++ "," ++ x
    · rw [if_pos hk, if_pos hk]
    · rw [if_neg hk, if_neg hk, if_neg (fun hc => hsome hc.2)]
  · rw [if_neg hhas, mapGet_mapSet]
    have hnone : mapGet (mapSet rs (name ++ "," ++ x) ⟨name, x, name ++ "," ++ x⟩) x =
        none := by
      rw [mapHas_eq_isSome_mapGet] at hhas
      exact Option.not_isSome_iff_eq_none.mp (by simpa using hhas)
    by_cases hkx : k = x
    · subst hkx
      rw [if_pos rfl]
      by_cases hk : k = name ++ "," ++ k
      · rw [if_pos hk]
      · rw [if_neg hk, if_pos ⟨rfl, hnone⟩]
    · rw [if_neg hkx, mapGet_mapSet]
      by_cases hk : k = name ++ "," ++ x
      · rw [if_pos hk, if_pos hk]
      · rw [if_neg hk, if_neg hk, if_neg (fun hc => hkx hc.1)]

/-- First-claim-wins is stable: an existing binding at a bare (comma-free)
key survives any insertion loop. -/
theorem insertModelRoutes_bare_preserved (name : String) (models : List String)
    (routes : List (String × ModelRoute)) (m : String) (r : ModelRoute)
    (hm : isBareName m = true) (h : mapGet routes m = some r) :
    mapGet (insertModelRoutes name models routes) m = some r := by
  induction models generalizing routes with
  | nil => exact h
  | cons x xs ih =>
    rw [insertModelRoutes_cons]
    apply ih
    rw [mapGet_insertOneRoute, if_neg (bareName_ne_qualified hm)]
    by_cases hx : m = x ∧
        mapGet (mapSet routes (name ++ "," ++ x) ⟨name, x, name ++ "," ++ x⟩) x = none
    · exfalso
      obtain ⟨hmx, hnone⟩ := hx
      rw [← hmx, mapGet_mapSet, if_neg (bareName_ne_qualified hm), h] at hnone
      exact Option.noConfusion hnone
    · rw [if_neg hx]
      exact h

/-- A bare key not among the inserted models is completely untouched. -/
theorem insertModelRoutes_bare_not_mem (name : String) (models : List String)
    (routes : List (String × ModelRoute)) (m : String)
    (hm : isBareName m = true) (hnm : m ∉ models) :
    mapGet (insertModelRoutes name models routes) m = mapGet routes m := by
  induction models generalizing routes with
  | nil => rfl
  | cons x xs ih =>
    rw [insertModelRoutes_cons, ih _ (fun hc => hnm (List.mem_cons_of_mem _ hc)),
      mapGet_insertOneRoute, if_neg (bareName_ne_qualified hm),
      if_neg (fun hc : m = x ∧ _ => hnm (by rw [hc.1]; exact List.mem_cons_self _ _))]

/-- A qualified key different from every inserted qualified key is
untouched, provided the inserted models are bare names. -/
theorem insertModelRoutes_qualified_untouched (name : String) (models : List String)
    (routes : List (String × ModelRoute)) (q : String)
    (hq : ∀ x ∈ models, q ≠ name ++ "," ++ x)
    (hbare : ∀ x ∈ models, isBareName x = true)
    (hqual : isBareName q = false) :
    mapGet (insertModelRoutes name models routes) q = mapGet routes q := by
  induction models generalizing routes with
  | nil => rfl
  | cons x xs ih =>
    rw [insertModelRoutes_cons,
      ih _ (fun y hy => hq y (List.mem_cons_of_mem _ hy))
        (fun y hy => hbare y (List.mem_cons_of_mem _ hy)),
      mapGet_insertOneRoute, if_neg (hq x (List.mem_cons_self _ _)),
      if_neg (fun hc : q = x ∧ _ => by
        have := hbare x (List.mem_cons_self _ _)
        rw [← hc.1] at this
        rw [this] at hqual
        exact Bool.noConfusion hqual)]

/-- A qualified binding of the inserting provider is stable under its own
insertion loop (a re-write stores the identical route). -/
theorem insertModelRoutes_qualified_stable (name : String) (models : List String)
    (routes : List (String × ModelRoute)) (m : String)
    (hbare : ∀ x ∈ models, isBareName x = true)
    (h : mapGet routes (name ++ "," ++ m) = some ⟨name, m, name ++ "," ++ m⟩) :
    mapGet (insertModelRoutes name models routes) (name ++ "," ++ m) =
      some ⟨name, m, name ++ "," ++ m⟩ := by
  induction models generalizing routes with
  | nil => exact h
  | cons x xs ih =>
    rw [insertModelRoutes_cons]
    apply ih _ (fun y hy => hbare y (List.mem_cons_of_mem _ hy))
    rw [mapGet_insertOneRoute]
    by_cases hxm : x = m
    · subst hxm
      rw [if_pos rfl]
    · rw [if_neg (fun hc => hxm (qualified_right_inj hc).symm),
        if_neg (fun hc : _ = x ∧ _ =>
          bareName_ne_qualified (hbare x (List.mem_cons_self _ _)) hc.1.symm)]
      exact h

/-- Every inserted model's qualified key maps to its route after the loop,
provided the inserted models are bare names. -/
theorem insertModelRoutes_qualified_written (name : String) (models : List String)
    (routes : List (String × ModelRoute)) (m : String)
    (hbare : ∀ x ∈ models, isBareName x = true) (hm : m ∈ models) :
    mapGet (insertModelRoutes name models routes) (name ++ "," ++ m) =
      some ⟨name, m, name ++ "," ++ m⟩ := by
  induction models generalizing routes with
  | nil => cases hm
  | cons x xs ih =>
    rw [insertModelRoutes_cons]
    by_cases hmem : m ∈ xs
    · exact ih _ (fun y hy => hbare y (List.mem_cons_of_mem _ hy)) hmem
    · have hmx : m = x := by
        rcases List.mem_cons.mp hm with h1 | h2
        · exact h1
        · exact absurd h2 hmem
      subst hmx
      apply insertModelRoutes_qualified_stable name xs _ m
        (fun y hy => hbare y (List.mem_cons_of_mem _ hy))
      rw [mapGet_insertOneRoute, if_pos rfl]

/-! ### Projections of the registry operations -/

theorem registerProvider_providers (s : ProviderService) (q : RegisterProviderRequest) :
    (s.registerProvider q).providers =
      mapSet s.providers q.name (providerOfRequest q) :=
  rfl

theorem registerProvider_modelRoutes (s : ProviderService) (q : RegisterProviderRequest) :
    (s.registerProvider q).modelRoutes =
      insertModelRoutes q.name q.models s.modelRoutes :=
  rfl

theorem registerProvider_keySelectors (s : ProviderService) (q : RegisterProviderRequest) :
    (s.registerProvider q).keySelectors =
      mapSet s.keySelectors q.name
        (ApiKeySelector.mk0 q.apiKey (q.apiKeyStrategy.getD Strategy.roundRobin)) :=
  rfl

theorem resolveModelRoute_eq (s : ProviderService) (k : String) (route : ModelRoute)
    (p : LLMProvider) (h1 : mapGet s.modelRoutes k = some route)
    (h2 : mapGet s.providers route.provider = some p) :
    s.resolveModelRoute k = some ⟨p, k, route.model⟩ := by
  simp only [ProviderService.resolveModelRoute, h1, h2]

theorem isBareName_qualified (a b : String) : isBareName (a ++ "," ++ b) = false := by
  unfold isBareName
  rw [data_qualified]
  simp

/-! ## Claim theorems -/

/-- C1: the claim states that after `updateProvider(P.name, {models: ["m2"]})`
on a provider registered with models `["m1"]`, the route table no longer
contains the bare entry `m1` nor the qualified entry `P,m1`, and contains
`m2` and `P,m2`.  The code violates the qualified-deletion part: the delete
loop builds the qualified key from the nonexistent `provider.id` property,
so it deletes the key `"undefined,m1"` and the entry `P,m1` survives.  This
theorem evaluates the code at the failing input: after the update, `P,m1`
is still present (with its old route), while the bare `m1` is gone and the
new `m2` routes are present as the claim says. -/
theorem C1_update_leaves_stale_qualified_route :
    mapGet servP2.modelRoutes "P,m1" = some ⟨"P", "m1", "P,m1"⟩ ∧
    mapGet servP2.modelRoutes "m1" = none ∧
    mapGet servP2.modelRoutes "m2" = some ⟨"P", "m2", "P,m2"⟩ ∧
    mapGet servP2.modelRoutes "P,m2" = some ⟨"P", "m2", "P,m2"⟩ := by
  decide

/-- C2 (counterexample): the claim states that the bare entry for a model
name `m` first claimed by `A` survives later model-list updates of another
provider `B` that also serves `m`.  In the concrete scenario — register `A`
with `chat`, register `B` with `chat`, then `updateProvider("B",
{models: ["chat"]})` — the bare `chat` entry resolves to `A` before the
update but to `B` after it: the update deletes the bare key
unconditionally and then re-claims it for `B`. -/
theorem C2_counterexample :
    (servAB.resolveModelRoute "chat").map (fun r => r.provider.name) = some "A" ∧
    (servAB2.resolveModelRoute "chat").map (fun r => r.provider.name) = some "B" := by
  decide

/-- C2 (amended): for any bare (comma-free) model name `m` with an existing
route entry, the entry survives any later `registerProvider` call
unchanged (first-claim-wins across registrations), and each qualified
entry `Q,x` of the newly registered provider resolves to that provider —
but, per the counterexample, bare entries do not in general survive
`updateProvider` calls of other providers serving `m`. -/
theorem C2_first_claim_wins_amended (s : ProviderService)
    (q : RegisterProviderRequest) (m : String) (r : ModelRoute)
    (hm : isBareName m = true)
    (hq : ∀ x ∈ q.models, isBareName x = true)
    (h : mapGet s.modelRoutes m = some r) :
    mapGet (s.registerProvider q).modelRoutes m = some r ∧
    ∀ x ∈ q.models,
      (s.registerProvider q).resolveModelRoute (q.name ++ "," ++ x) =
        some ⟨providerOfRequest q, q.name ++ "," ++ x, x⟩ := by
  constructor
  · rw [registerProvider_modelRoutes]
    exact insertModelRoutes_bare_preserved _ _ _ _ _ hm h
  · intro x hx
    have hroute : mapGet (s.registerProvider q).modelRoutes (q.name ++ "," ++ x) =
        some ⟨q.name, x, q.name ++ "," ++ x⟩ := by
      rw [registerProvider_modelRoutes]
      exact insertModelRoutes_qualified_written _ _ _ _ hq hx
    have hprov : mapGet (s.registerProvider q).providers q.name =
        some (providerOfRequest q) := by
      rw [registerProvider_providers, mapGet_mapSet, if_pos rfl]
    exact resolveModelRoute_eq _ _ _ _ hroute hprov

/-- C2 (witness): the amended theorem applied to the spec's own example —
`A` has claimed `chat`, then `B` registers with `chat`: the bare entry
still holds `A`'s route, and `B,chat` resolves to `B`. -/
theorem C2_witness :
    mapGet (servA.registerProvider ⟨"B", "http://b", ["kb"], none, ["chat"]⟩).modelRoutes
        "chat" = some ⟨"A", "chat", "A,chat"⟩ ∧
    (servA.registerProvider ⟨"B", "http://b", ["kb"], none, ["chat"]⟩).resolveModelRoute
        ("B" ++ "," ++ "chat") =
      some ⟨providerOfRequest ⟨"B", "http://b", ["kb"], none, ["chat"]⟩,
        "B" ++ "," ++ "chat", "chat"⟩ := by
  have h := C2_first_claim_wins_amended servA
    ⟨"B", "http://b", ["kb"], none, ["chat"]⟩ "chat" ⟨"A", "chat", "A,chat"⟩
    (by decide) (by decide) (by decide)
  exact ⟨h.1, h.2 "chat" (by decide)⟩

/-- C3: the claim states `deleteProvider(n)` removes the Provider record,
its KeySelector, and its routes, and that afterwards `selectApiKey(n)`
fails with `UnknownProvider`.  The code removes the provider and its routes
and returns `true`, and `getAvailableModelNames()` no longer lists its
models — but it never deletes from the `keySelectors` map, so
`selectApiKey` still finds the stale selector and succeeds instead of
failing: this theorem evaluates the code at the failing input. -/
theorem C3_delete_leaves_key_selector :
    (servP.deleteProvider "P").1 = true ∧
    mapGet (servP.deleteProvider "P").2.providers "P" = none ∧
    mapGet (servP.deleteProvider "P").2.modelRoutes "m1" = none ∧
    mapGet (servP.deleteProvider "P").2.modelRoutes "P,m1" = none ∧
    (servP.deleteProvider "P").2.getAvailableModelNames = [] ∧
    ((servP.deleteProvider "P").2.selectApiKey "P" (-1) 0).isOk = true ∧
    (servP.deleteProvider "P").2.getApiKeyCount "P" = 1 := by
  decide

/-- C4 (counterexample): the claim states that `getApiKeyCount` on an
unregistered provider name fails with `UnknownProvider`; the code instead
returns the value `0` (here on a fresh service, whose selector map has no
entry at all). -/
theorem C4_counterexample :
    mapGet ProviderService.empty.keySelectors "nope" = none ∧
    ProviderService.empty.getApiKeyCount "nope" = 0 := by
  decide

/-- C4 (amended): for a provider name with no key selector entry — in
particular any name that was never registered, though not a deleted
provider's name, whose stale selector survives `deleteProvider` —
`selectApiKey` fails hard with the unknown-provider error, while
`getApiKeyCount` returns 0 rather than failing. -/
theorem C4_unknown_provider_amended (s : ProviderService) (name : String)
    (e : Int) (rnd : Nat) (h : mapGet s.keySelectors name = none) :
    s.selectApiKey name e rnd =
      Except.error ("No key selector found for provider: " ++ name) ∧
    s.getApiKeyCount name = 0 := by
  constructor
  · simp only [ProviderService.selectApiKey, h]
  · simp only [ProviderService.getApiKeyCount, h]

/-- C4 (witness): the amended theorem applied to a fresh service and the
name `nope`. -/
theorem C4_witness :
    ProviderService.empty.selectApiKey "nope" (-1) 0 =
      Except.error ("No key selector found for provider: " ++ "nope") ∧
    ProviderService.empty.getApiKeyCount "nope" = 0 :=
  C4_unknown_provider_amended ProviderService.empty "nope" (-1) 0 (by decide)

/-- C5 (counterexample): the claim states every registration with an empty
`apiKeys` list is rejected, so that no registered Provider has an empty
key sequence.  `registerProvider` itself performs no validation: calling
it directly with an empty key list stores the Provider (and a zero-key
selector), refuting the claim. -/
theorem C5_counterexample :
    mapGet servEmptyKeys.providers "X" =
      some ⟨"X", "http://x", [], none, ["m"]⟩ ∧
    mapGet servEmptyKeys.keySelectors "X" =
      some (ApiKeySelector.mk0 [] Strategy.roundRobin) := by
  decide

/-- C5 (amended): only the bulk loader validates.  During bulk
initialization an entry with a missing name, missing base URL, or a
missing/non-array/empty `api_key` is skipped — contributing no Provider,
KeySelector, or routes — and the remaining entries are still processed;
`registerProvider` itself performs no validation, so a directly registered
Provider may carry an empty key sequence. -/
theorem C5_bulk_init_skips_invalid (s : ProviderService) (c : ConfigProvider)
    (rest : List ConfigProvider) (h : validProviderConfig c = false) :
    s.initFromProvidersArray (c :: rest) = s.initFromProvidersArray rest := by
  simp only [ProviderService.initFromProvidersArray, List.foldl_cons, h,
    Bool.false_eq_true, if_false]

/-- C5 (witness): the amended theorem applied to an entry with an empty key
list followed by a valid entry: the bad entry is skipped and the valid one
is still registered. -/
theorem C5_witness :
    ProviderService.empty.initFromProvidersArray
        [⟨"bad", "http://b", some [], none, some ["m"]⟩,
          ⟨"good", "http://g", some ["k"], none, some ["m"]⟩] =
      ProviderService.empty.initFromProvidersArray
        [⟨"good", "http://g", some ["k"], none, some ["m"]⟩] :=
  C5_bulk_init_skips_invalid ProviderService.empty
    ⟨"bad", "http://b", some [], none, some ["m"]⟩
    [⟨"good", "http://g", some ["k"], none, some ["m"]⟩] (by decide)

/-! ### Selector lemmas for the three strategies -/

theorem roundRobin_selectKey_nonfailure (s : ApiKeySelector) (rnd : Nat)
    (hstrat : s.strategy = Strategy.roundRobin) (hn : 2 ≤ s.keys.length) :
    s.selectKey (-1) rnd =
      Except.ok ((s.keys[s.currentIndex]?, s.currentIndex),
        { s with currentIndex := (s.currentIndex + 1) % s.keys.length }) := by
  have h0 : ¬(s.keys.length = 0) := by omega
  have h1 : ¬(s.keys.length = 1) := by omega
  simp [ApiKeySelector.selectKey, hstrat, h0, h1,
    show ¬((0 : Int) ≤ -1) by decide]

theorem roundRobin_selectKey_failure (s : ApiKeySelector) (e : Int) (rnd : Nat)
    (hstrat : s.strategy = Strategy.roundRobin) (hn : 2 ≤ s.keys.length)
    (he : 0 ≤ e) :
    s.selectKey e rnd =
      Except.ok ((s.keys[(e + 1).toNat % s.keys.length]?,
        (e + 1).toNat % s.keys.length), s) := by
  have h0 : ¬(s.keys.length = 0) := by omega
  have h1 : ¬(s.keys.length = 1) := by omega
  simp [ApiKeySelector.selectKey, hstrat, h0, h1, he]

theorem failover_selectKey_nonfailure (s : ApiKeySelector) (rnd : Nat)
    (hstrat : s.strategy = Strategy.failover) (hn : 2 ≤ s.keys.length) :
    s.selectKey (-1) rnd =
      Except.ok ((s.keys[s.currentIndex]?, s.currentIndex), s) := by
  have h0 : ¬(s.keys.length = 0) := by omega
  have h1 : ¬(s.keys.length = 1) := by omega
  simp [ApiKeySelector.selectKey, hstrat, h0, h1,
    show ¬((0 : Int) ≤ -1) by decide]

theorem failover_selectKey_failure (s : ApiKeySelector) (e : Int) (rnd : Nat)
    (hstrat : s.strategy = Strategy.failover) (hn : 2 ≤ s.keys.length)
    (he : 0 ≤ e) :
    s.selectKey e rnd =
      Except.ok ((s.keys[(e + 1).toNat % s.keys.length]?,
        (e + 1).toNat % s.keys.length),
        { s with currentIndex := (e + 1).toNat % s.keys.length }) := by
  have h0 : ¬(s.keys.length = 0) := by omega
  have h1 : ¬(s.keys.length = 1) := by omega
  simp [ApiKeySelector.selectKey, hstrat, h0, h1, he]

theorem random_selectKey_failure (s : ApiKeySelector) (e : Int) (rnd : Nat)
    (hstrat : s.strategy = Strategy.random) (hn : 2 ≤ s.keys.length)
    (he : 0 ≤ e) :
    ∃ i : Nat, s.selectKey e rnd = Except.ok ((s.keys[i]?, i), s) ∧
      i < s.keys.length ∧ Int.ofNat i ≠ e := by
  have h0 : ¬(s.keys.length = 0) := by omega
  have h1 : ¬(s.keys.length = 1) := by omega
  have hcond : 0 ≤ e ∧ 1 < s.keys.length := ⟨he, by omega⟩
  have hApos :
      0 < ((List.range s.keys.length).filter (fun i => Int.ofNat i != e)).length := by
    rcases eq_or_ne e 0 with he0 | he0
    · apply List.length_pos_of_mem (a := 1)
      rw [List.mem_filter]
      refine ⟨List.mem_range.mpr (by omega), ?_⟩
      rw [he0]
      decide
    · apply List.length_pos_of_mem (a := 0)
      rw [List.mem_filter]
      refine ⟨List.mem_range.mpr (by omega), ?_⟩
      exact bne_iff_ne.mpr (fun hc => he0 hc.symm)
  have hidx :
      rnd % ((List.range s.keys.length).filter (fun i => Int.ofNat i != e)).length <
        ((List.range s.keys.length).filter (fun i => Int.ofNat i != e)).length :=
    Nat.mod_lt rnd hApos
  have hgetd :
      ((List.range s.keys.length).filter (fun i => Int.ofNat i != e)).getD
          (rnd % ((List.range s.keys.length).filter
            (fun i => Int.ofNat i != e)).length) 0 =
        ((List.range s.keys.length).filter (fun i => Int.ofNat i != e)).get
          ⟨rnd % ((List.range s.keys.length).filter
            (fun i => Int.ofNat i != e)).length, hidx⟩ := by
    rw [List.getD_eq_getElem?_getD, List.getElem?_eq_getElem hidx]
    rfl
  have hmem :=
    List.get_mem ((List.range s.keys.length).filter (fun i => Int.ofNat i != e))
      (rnd % ((List.range s.keys.length).filter (fun i => Int.ofNat i != e)).length)
      hidx
  rw [List.mem_filter] at hmem
  refine ⟨((List.range s.keys.length).filter (fun i => Int.ofNat i != e)).getD
      (rnd % ((List.range s.keys.length).filter
        (fun i => Int.ofNat i != e)).length) 0, ?_, ?_, ?_⟩
  · simp [ApiKeySelector.selectKey, hstrat, h0, h1, hcond]
  · rw [hgetd]
    exact List.mem_range.mp hmem.1
  · rw [hgetd]
    exact bne_iff_ne.mp hmem.2

/-- C6: round-robin with at least two keys.  A non-failure call returns the
key at the stored `currentIndex` and advances the cursor by one modulo the
key count — so iterated non-failure calls cycle `0,1,...,n-1,0,...` (third
conjunct) — while a failure call returns the key at
`(excludeIndex + 1) mod n` and leaves the stored cursor unchanged. -/
theorem C6_round_robin (s : ApiKeySelector) (e : Int) (rnd : Nat)
    (hstrat : s.strategy = Strategy.roundRobin)
    (hn : 2 ≤ s.keys.length) (hi : s.currentIndex < s.keys.length) :
    s.selectKey (-1) rnd =
      Except.ok ((s.keys[s.currentIndex]?, s.currentIndex),
        { s with currentIndex := (s.currentIndex + 1) % s.keys.length }) ∧
    (0 ≤ e →
      s.selectKey e rnd =
        Except.ok ((s.keys[(e + 1).toNat % s.keys.length]?,
          (e + 1).toNat % s.keys.length), s)) ∧
    ∀ k, s.runNonFailure k =
      { s with currentIndex := (s.currentIndex + k) % s.keys.length } := by
  refine ⟨roundRobin_selectKey_nonfailure s rnd hstrat hn,
    fun he => roundRobin_selectKey_failure s e rnd hstrat hn he, ?_⟩
  intro k
  induction k with
  | zero =>
    show s = { s with currentIndex := (s.currentIndex + 0) % s.keys.length }
    rw [Nat.add_zero, Nat.mod_eq_of_lt hi]
  | succ k ihk =>
    have hstep := roundRobin_selectKey_nonfailure
      { s with currentIndex := (s.currentIndex + k) % s.keys.length } 0 hstrat hn
    show (match (s.runNonFailure k).selectKey (-1) 0 with
      | Except.ok r => r.2
      | Except.error _ => s.runNonFailure k) = _
    rw [ihk, hstep]
    have h1n : 1 % s.keys.length = 1 := Nat.mod_eq_of_lt (by omega)
    conv_rhs => rw [← Nat.add_assoc, Nat.add_mod (s.currentIndex + k) 1, h1n]

/-- C6 (witness): the theorem applied to a fresh three-key round-robin
selector: the first non-failure call yields `(k1, 0)` and advances the
cursor to 1; a failure call excluding index 0 yields `(k2, 1)` and leaves
the cursor at 0; two iterated non-failure calls leave the cursor at 2. -/
theorem C6_witness :
    (⟨0, Strategy.roundRobin, ["k1", "k2", "k3"]⟩ : ApiKeySelector).selectKey (-1) 0 =
      Except.ok ((some "k1", 0), ⟨1, Strategy.roundRobin, ["k1", "k2", "k3"]⟩) ∧
    (⟨0, Strategy.roundRobin, ["k1", "k2", "k3"]⟩ : ApiKeySelector).selectKey 0 0 =
      Except.ok ((some "k2", 1), ⟨0, Strategy.roundRobin, ["k1", "k2", "k3"]⟩) ∧
    (⟨0, Strategy.roundRobin, ["k1", "k2", "k3"]⟩ : ApiKeySelector).runNonFailure 2 =
      ⟨2, Strategy.roundRobin, ["k1", "k2", "k3"]⟩ := by
  have h := C6_round_robin ⟨0, Strategy.roundRobin, ["k1", "k2", "k3"]⟩ 0 0 rfl
    (by decide) (by decide)
  exact ⟨h.1.trans rfl, (h.2.1 (by decide)).trans rfl, (h.2.2 2).trans rfl⟩

/-- C7: failover with at least two keys is sticky.  A non-failure call
returns the key at the stored `currentIndex` without modifying the state;
a failure call stores `(excludeIndex + 1) mod n` as the new cursor and
returns that key, and the immediately following non-failure call returns
the same key and index again. -/
theorem C7_failover_sticky (s : ApiKeySelector) (e : Int) (rnd rnd2 : Nat)
    (hstrat : s.strategy = Strategy.failover) (hn : 2 ≤ s.keys.length) :
    s.selectKey (-1) rnd =
      Except.ok ((s.keys[s.currentIndex]?, s.currentIndex), s) ∧
    (0 ≤ e →
      s.selectKey e rnd =
        Except.ok ((s.keys[(e + 1).toNat % s.keys.length]?,
          (e + 1).toNat % s.keys.length),
          { s with currentIndex := (e + 1).toNat % s.keys.length }) ∧
      ({ s with currentIndex := (e + 1).toNat % s.keys.length } :
          ApiKeySelector).selectKey (-1) rnd2 =
        Except.ok ((s.keys[(e + 1).toNat % s.keys.length]?,
          (e + 1).toNat % s.keys.length),
          { s with currentIndex := (e + 1).toNat % s.keys.length })) := by
  refine ⟨failover_selectKey_nonfailure s rnd hstrat hn, fun he => ⟨?_, ?_⟩⟩
  · exact failover_selectKey_failure s e rnd hstrat hn he
  · exact failover_selectKey_nonfailure
      { s with currentIndex := (e + 1).toNat % s.keys.length } rnd2 hstrat hn

/-- C7 (witness): the spec's own example — keys `[k1, k2]`, `selectKey(0)`
(k1 failed) yields `(k2, 1)` and persists the cursor, and the following
non-failure call yields `(k2, 1)` again. -/
theorem C7_witness :
    (⟨0, Strategy.failover, ["k1", "k2"]⟩ : ApiKeySelector).selectKey 0 0 =
      Except.ok ((some "k2", 1), ⟨1, Strategy.failover, ["k1", "k2"]⟩) ∧
    (⟨1, Strategy.failover, ["k1", "k2"]⟩ : ApiKeySelector).selectKey (-1) 0 =
      Except.ok ((some "k2", 1), ⟨1, Strategy.failover, ["k1", "k2"]⟩) := by
  have h := C7_failover_sticky ⟨0, Strategy.failover, ["k1", "k2"]⟩ 0 0 0 rfl
    (by decide)
  exact ⟨(h.2 (by decide)).1.trans rfl, (h.2 (by decide)).2.trans rfl⟩

/-- C8: random strategy.  With at least two keys, every failure call
(`excludeIndex ≥ 0`) returns — for every possible random draw `rnd` — a
valid index into `keys` different from `excludeIndex`, leaving the
selector state unchanged; with exactly one key, `selectKey` always returns
the single key at index 0 regardless of `excludeIndex`. -/
theorem C8_random_excludes_failed (s : ApiKeySelector) (e : Int) (rnd : Nat)
    (hstrat : s.strategy = Strategy.random) :
    (2 ≤ s.keys.length → 0 ≤ e →
      s.selectKey e rnd =
        Except.ok ((s.keys[selectedIndexOf (s.selectKey e rnd)]?,
          selectedIndexOf (s.selectKey e rnd)), s) ∧
      selectedIndexOf (s.selectKey e rnd) < s.keys.length ∧
      Int.ofNat (selectedIndexOf (s.selectKey e rnd)) ≠ e) ∧
    (s.keys.length = 1 →
      s.selectKey e rnd = Except.ok ((s.keys[0]?, 0), s)) := by
  constructor
  · intro hn he
    obtain ⟨i, hsel, hlt, hne⟩ := random_selectKey_failure s e rnd hstrat hn he
    have hsi : selectedIndexOf (s.selectKey e rnd) = i := by
      rw [hsel]
      rfl
    rw [hsi]
    exact ⟨hsel, hlt, hne⟩
  · intro hlen
    have h0 : ¬(s.keys.length = 0) := by omega
    simp [ApiKeySelector.selectKey, h0, hlen]

/-- C8 (witness): the theorem applied to a three-key random selector with
`excludeIndex = 1` and draw 5: the call succeeds with a valid index
different from 1 and does not disturb the selector, and a one-key random
selector always answers `(key, 0)`. -/
theorem C8_witness :
    ((⟨0, Strategy.random, ["k1", "k2", "k3"]⟩ : ApiKeySelector).selectKey 1 5 =
      Except.ok ((((⟨0, Strategy.random, ["k1", "k2", "k3"]⟩ :
          ApiKeySelector)).keys[selectedIndexOf
            ((⟨0, Strategy.random, ["k1", "k2", "k3"]⟩ :
              ApiKeySelector).selectKey 1 5)]?,
        selectedIndexOf ((⟨0, Strategy.random, ["k1", "k2", "k3"]⟩ :
          ApiKeySelector).selectKey 1 5)),
        ⟨0, Strategy.random, ["k1", "k2", "k3"]⟩) ∧
      selectedIndexOf ((⟨0, Strategy.random, ["k1", "k2", "k3"]⟩ :
        ApiKeySelector).selectKey 1 5) < 3 ∧
      Int.ofNat (selectedIndexOf ((⟨0, Strategy.random, ["k1", "k2", "k3"]⟩ :
        ApiKeySelector).selectKey 1 5)) ≠ 1) ∧
    (⟨0, Strategy.random, ["solo"]⟩ : ApiKeySelector).selectKey 7 3 =
      Except.ok ((some "solo", 0), ⟨0, Strategy.random, ["solo"]⟩) := by
  constructor
  · exact (C8_random_excludes_failed ⟨0, Strategy.random, ["k1", "k2", "k3"]⟩ 1 5
      rfl).1 (by decide) (by decide)
  · exact ((C8_random_excludes_failed ⟨0, Strategy.random, ["solo"]⟩ 7 3 rfl).2
      (by decide)).trans rfl

/-- C9: the Gemini adapter's `transformRequestIn` joins the provider's base
URL with `<model>:streamGenerateContent?alt=sse` when the request streams
and with `<model>:generateContent` otherwise, carries the credential (the
first API key) in the `x-goog-api-key` header, and explicitly unsets the
`Authorization` header, so no bearer token is sent. -/
theorem C9_gemini_transform (r : UnifiedChatRequest) (p : LLMProvider) :
    (r.stream = true →
      (GeminiTransformer.transformRequestIn r p).urlRelative =
        "./" ++ r.model ++ ":streamGenerateContent?alt=sse") ∧
    (r.stream = false →
      (GeminiTransformer.transformRequestIn r p).urlRelative =
        "./" ++ r.model ++ ":generateContent") ∧
    (GeminiTransformer.transformRequestIn r p).urlBase = p.baseUrl ∧
    (GeminiTransformer.transformRequestIn r p).xGoogApiKey = p.apiKey.head? ∧
    (GeminiTransformer.transformRequestIn r p).authorization = none := by
  refine ⟨fun hs => ?_, fun hs => ?_, rfl, rfl, rfl⟩
  · show "./" ++ r.model ++ ":" ++
        (if r.stream then "streamGenerateContent?alt=sse" else "generateContent") =
      "./" ++ r.model ++ ":streamGenerateContent?alt=sse"
    rw [hs]
    rw [String.append_assoc]
    rfl
  · show "./" ++ r.model ++ ":" ++
        (if r.stream then "streamGenerateContent?alt=sse" else "generateContent") =
      "./" ++ r.model ++ ":generateContent"
    rw [hs]
    rw [String.append_assoc]
    rfl

/-- C9 (witness): the theorem applied to a streaming and a non-streaming
request against a concrete provider. -/
theorem C9_witness :
    (GeminiTransformer.transformRequestIn ⟨"gem", true⟩
        ⟨"P", "http://b/v1beta/models/", ["kk"], none, []⟩).urlRelative =
      "./" ++ "gem" ++ ":streamGenerateContent?alt=sse" ∧
    (GeminiTransformer.transformRequestIn ⟨"gem", false⟩
        ⟨"P", "http://b/v1beta/models/", ["kk"], none, []⟩).urlRelative =
      "./" ++ "gem" ++ ":generateContent" ∧
    (GeminiTransformer.transformRequestIn ⟨"gem", true⟩
        ⟨"P", "http://b/v1beta/models/", ["kk"], none, []⟩).xGoogApiKey =
      some "kk" ∧
    (GeminiTransformer.transformRequestIn ⟨"gem", true⟩
        ⟨"P", "http://b/v1beta/models/", ["kk"], none, []⟩).authorization = none :=
  ⟨(C9_gemini_transform ⟨"gem", true⟩
      ⟨"P", "http://b/v1beta/models/", ["kk"], none, []⟩).1 rfl,
    (C9_gemini_transform ⟨"gem", false⟩
      ⟨"P", "http://b/v1beta/models/", ["kk"], none, []⟩).2.1 rfl,
    (C9_gemini_transform ⟨"gem", true⟩
      ⟨"P", "http://b/v1beta/models/", ["kk"], none, []⟩).2.2.2.1,
    (C9_gemini_transform ⟨"gem", true⟩
      ⟨"P", "http://b/v1beta/models/", ["kk"], none, []⟩).2.2.2.2⟩

/-- C10: re-registering an existing provider name replaces the Provider
record and its KeySelector but deletes no routes: for a model `m` served by
the old registration and absent from the new one, the qualified entry
`name,m` remains in the route table and `resolveModelRoute` resolves it to
the re-registered (current) provider record, and the bare entry for `m` is
untouched.  Model names are assumed comma-free (bare names). -/
theorem C10_reregister_keeps_old_routes (s0 : ProviderService)
    (r1 r2 : RegisterProviderRequest) (m : String)
    (hname : r2.name = r1.name)
    (hm : m ∈ r1.models) (hm2 : m ∉ r2.models)
    (hbare1 : ∀ x ∈ r1.models, isBareName x = true)
    (hbare2 : ∀ x ∈ r2.models, isBareName x = true) :
    mapGet ((s0.registerProvider r1).registerProvider r2).providers r1.name =
      some (providerOfRequest r2) ∧
    mapGet ((s0.registerProvider r1).registerProvider r2).keySelectors r1.name =
      some (ApiKeySelector.mk0 r2.apiKey
        (r2.apiKeyStrategy.getD Strategy.roundRobin)) ∧
    ((s0.registerProvider r1).registerProvider r2).resolveModelRoute
        (r1.name ++ "," ++ m) =
      some ⟨providerOfRequest r2, r1.name ++ "," ++ m, m⟩ ∧
    mapGet ((s0.registerProvider r1).registerProvider r2).modelRoutes m =
      mapGet (s0.registerProvider r1).modelRoutes m := by
  have hprov :
      mapGet ((s0.registerProvider r1).registerProvider r2).providers r1.name =
        some (providerOfRequest r2) := by
    rw [registerProvider_providers, mapGet_mapSet, if_pos hname.symm]
  have huntouched : ∀ x ∈ r2.models, r1.name ++ "," ++ m ≠ r2.name ++ "," ++ x := by
    intro x hx hc
    rw [hname] at hc
    exact hm2 (by rw [qualified_right_inj hc]; exact hx)
  have hq :
      mapGet ((s0.registerProvider r1).registerProvider r2).modelRoutes
          (r1.name ++ "," ++ m) = some ⟨r1.name, m, r1.name ++ "," ++ m⟩ := by
    rw [registerProvider_modelRoutes,
      insertModelRoutes_qualified_untouched r2.name r2.models _ _ huntouched hbare2
        (isBareName_qualified _ _),
      registerProvider_modelRoutes]
    exact insertModelRoutes_qualified_written _ _ _ _ hbare1 hm
  refine ⟨hprov, ?_, ?_, ?_⟩
  · rw [registerProvider_keySelectors, mapGet_mapSet, if_pos hname.symm]
  · exact resolveModelRoute_eq _ _ _ _ hq hprov
  · rw [registerProvider_modelRoutes]
    exact insertModelRoutes_bare_not_mem r2.name r2.models _ m (hbare1 m hm) hm2

/-- C10 (witness): register `A` serving `m1`, then re-register `A` serving
`m2`: the provider record and selector are replaced, yet `A,m1` still
resolves (to the new record), and the bare `m1` entry is untouched. -/
theorem C10_witness :
    mapGet ((ProviderService.empty.registerProvider
          ⟨"A", "http://a1", ["k1"], none, ["m1"]⟩).registerProvider
          ⟨"A", "http://a2", ["k2"], none, ["m2"]⟩).providers "A" =
      some ⟨"A", "http://a2", ["k2"], none, ["m2"]⟩ ∧
    mapGet ((ProviderService.empty.registerProvider
          ⟨"A", "http://a1", ["k1"], none, ["m1"]⟩).registerProvider
          ⟨"A", "http://a2", ["k2"], none, ["m2"]⟩).keySelectors "A" =
      some (ApiKeySelector.mk0 ["k2"] Strategy.roundRobin) ∧
    ((ProviderService.empty.registerProvider
          ⟨"A", "http://a1", ["k1"], none, ["m1"]⟩).registerProvider
          ⟨"A", "http://a2", ["k2"], none, ["m2"]⟩).resolveModelRoute "A,m1" =
      some ⟨⟨"A", "http://a2", ["k2"], none, ["m2"]⟩, "A,m1", "m1"⟩ ∧
    mapGet ((ProviderService.empty.registerProvider
          ⟨"A", "http://a1", ["k1"], none, ["m1"]⟩).registerProvider
          ⟨"A", "http://a2", ["k2"], none, ["m2"]⟩).modelRoutes "m1" =
      mapGet (ProviderService.empty.registerProvider
          ⟨"A", "http://a1", ["k1"], none, ["m1"]⟩).modelRoutes "m1" :=
  C10_reregister_keeps_old_routes ProviderService.empty
    ⟨"A", "http://a1", ["k1"], none, ["m1"]⟩
    ⟨"A", "http://a2", ["k2"], none, ["m2"]⟩ "m1" rfl (by decide) (by decide)
    (by decide) (by decide)
